import Mathlib

/-!
Verification of the resilient external-call orchestration layer of the
AI Resume + Platform Analyzer backend: the HuggingFace role-prediction
client with retry/fallback (`app/routes/role_predictor.py`) and the
multi-source aggregator (`app/routes/analyze_all.py`).

Python strings are modelled as lists of characters (`PyStr`), floats as
rationals (`ℚ`; every score in scope is an exact decimal), JSON bodies as
an inductive `Json` tree, and the remote HTTP service as an environment
function from the index of the issued POST to its outcome.
-/

namespace Spec2Proof

/-- Python `str` as a list of code points. -/
abbrev PyStr := List Char

/-- Literal conversion from a Lean string literal to a `PyStr`. -/
def pyS (s : String) : PyStr := s.data

/-- Python `str.lower()` (character-wise lowercasing). -/
def pyLower (s : PyStr) : PyStr := s.map Char.toLower

/-- Python `str.strip()`: drops whitespace from both ends. -/
def pyStrip (s : PyStr) : PyStr :=
  ((s.dropWhile Char.isWhitespace).reverse.dropWhile Char.isWhitespace).reverse

/-- Boolean test that `pat` occurs at the start of `s`. -/
def leadsWith : PyStr → PyStr → Bool
  | [], _ => true
  | _ :: _, [] => false
  | c :: cs, d :: ds => c = d && leadsWith cs ds

/-- Python `pat in s` on strings: `pat` occurs as a contiguous substring of `s`. -/
def hasSub (pat : PyStr) : PyStr → Bool
  | [] => leadsWith pat []
  | s@(_ :: rest) => leadsWith pat s || hasSub pat rest

/-- Python `any(kw in s for kw in kws)`. -/
def anyKwIn (kws : List PyStr) (s : PyStr) : Bool := kws.any fun k => hasSub k s

/-- JSON values as parsed by `res.json()`.  Numbers are rationals. -/
inductive Json where
  | arr (elems : List Json)
  | obj (fields : List (PyStr × Json))
  | str (s : PyStr)
  | num (q : ℚ)
  | bool (b : Bool)
  | null

/-- Field lookup on a JSON object (Python `d[k]` / membership); `none` when the
value is not a dict or the key is absent. -/
def Json.getField (j : Json) (k : PyStr) : Option Json :=
  match j with
  | .obj fields => fields.lookup k
  | _ => none

/-- Python `k in d` for a dict. -/
def Json.hasKey (j : Json) (k : PyStr) : Bool := (j.getField k).isSome

/-- Python truthiness of a JSON value. -/
def Json.truthy : Json → Bool
  | .arr xs => !xs.isEmpty
  | .obj fs => !fs.isEmpty
  | .str s => !s.isEmpty
  | .num q => q ≠ 0
  | .bool b => b
  | .null => false

/-- Abbreviated rendering of a JSON value used only inside diagnostic error
strings (Python would interpolate `str(data)`; no claim inspects this text). -/
def Json.render : Json → PyStr
  | .arr _ => pyS "<list>"
  | .obj _ => pyS "<dict>"
  | .str s => s
  | .num _ => pyS "<number>"
  | .bool b => if b then pyS "True" else pyS "False"
  | .null => pyS "None"

/-! ## The remote HTTP model -/

/-- One HTTP POST request as issued by `_call_hf_api`: the endpoint URL is
fixed, so a request is characterised by whether the `Authorization` header is
present and by the text payload (`{"inputs": text}`). -/
structure HttpRequest where
  hasAuth : Bool
  body : PyStr
deriving DecidableEq

/-- An HTTP response: status code, raw text (used for the 403-signature
substring check and diagnostics), and the parsed JSON body (`none` models
`res.json()` raising). -/
structure HttpResponse where
  status : Nat
  text : PyStr
  json : Option Json

/-- Outcome of one physical POST: a transport/timeout exception or a response. -/
inductive CallResult where
  | exn (msg : PyStr)
  | resp (r : HttpResponse)

/-- The remote service: the outcome of the `n`-th POST issued (0-indexed,
counted across downgrade re-issues and retries). -/
abbrev Env := Nat → CallResult

/-- Observable trace of `_call_hf_api`: requests issued in order, the sleeps
performed (each 0.5), and the number of loop attempts executed. -/
structure Trace where
  posts : List HttpRequest
  sleeps : List ℚ
  attempts : Nat
deriving DecidableEq

/-- Errors accumulated in `last_error`: an `HTTPException(status, detail)` or a
generic caught exception. -/
inductive HfError where
  | httpExc (status : Nat) (detail : PyStr)
  | exc (msg : PyStr)
deriving DecidableEq

/-- The 403-downgrade signature checked by substring against `res.text`. -/
def permSignature : PyStr := pyS "does not have sufficient permissions"

/-- Issue one POST: consult the environment at the index of the next post and
record the request in the trace. -/
def doPost (env : Env) (tr : Trace) (req : HttpRequest) : CallResult × Trace :=
  (env tr.posts.length, { tr with posts := tr.posts ++ [req] })

/-- Result of one iteration of the retry loop body (the `try` block): either
`return data` fired with a list of predictions, or `last_error` was set. -/
inductive AttemptOutcome where
  | success (preds : List Json)
  | failed (e : HfError)

/-- Classification of the (possibly substituted) response inside one loop
iteration of `_call_hf_api`: 503 and other ≥400 statuses set `last_error`; a
2xx body that is a non-empty list whose first element is a list returns that
inner list, any other list returns as-is, a non-list body sets an "unexpected
response" `HTTPException(500)` as `last_error`, and a `res.json()` decode
failure is caught by the `except` clause. -/
def classifyResponse (res : HttpResponse) : AttemptOutcome :=
  if res.status = 503 then
    .failed (.httpExc 503 (pyS "Model is loading, please retry shortly."))
  else if res.status ≥ 400 then
    .failed (.httpExc res.status (pyS "HuggingFace error: " ++ res.text))
  else
    match res.json with
    | none => .failed (.exc (pyS "JSONDecodeError"))
    | some data =>
      match data with
      | .arr (Json.arr inner :: _) => .success inner
      | .arr elems => .success elems
      | _ =>
        .failed (.httpExc 500 (pyS "Unexpected HuggingFace response: " ++ data.render))

/-- One iteration of the retry loop of `_call_hf_api`: POST with auth when a
key is configured; when the response is a 403 carrying the
insufficient-permissions signature, immediately re-issue the identical request
once without auth; then classify the (possibly substituted) response, with
transport exceptions caught into `last_error`. -/
def attemptOnce (env : Env) (hasKey : Bool) (text : PyStr) (tr : Trace) :
    AttemptOutcome × Trace :=
  let (r1, tr) := doPost env tr ⟨hasKey, text⟩
  match r1 with
  | .exn m => (.failed (.exc m), tr)
  | .resp res0 =>
    if res0.status = 403 ∧ hasSub permSignature res0.text then
      let (r2, tr) := doPost env tr ⟨false, text⟩
      match r2 with
      | .exn m => (.failed (.exc m), tr)
      | .resp res2 => (classifyResponse res2, tr)
    else
      (classifyResponse res0, tr)

/-- Final `raise` of `_call_hf_api`: re-raise an `HTTPException`, wrap any other
exception (or the impossible empty case) in an `HTTPException(500)`. -/
def finalError : Option HfError → HfError
  | some (.httpExc st d) => .httpExc st d
  | some (.exc m) => .httpExc 500 m
  | none => .httpExc 500 (pyS "Unknown HF error")

/-- The retry loop of `_call_hf_api`, by the number of remaining attempts.
`remaining = n + 1` runs the loop body once; when it fails and further attempts
remain (`attempt < max_retries`, i.e. `n > 0`) it sleeps 0.5 and recurses. -/
def hfLoop (env : Env) (hasKey : Bool) (text : PyStr) :
    Nat → Option HfError → Trace → Except HfError (List Json) × Trace
  | 0, lastError, tr => (.error (finalError lastError), tr)
  | n + 1, _, tr =>
    let (out, tr) := attemptOnce env hasKey text { tr with attempts := tr.attempts + 1 }
    match out with
    | .success preds => (.ok preds, tr)
    | .failed e =>
      if n > 0 then
        hfLoop env hasKey text n (some e) { tr with sleeps := tr.sleeps ++ [1/2] }
      else
        (.error (finalError (some e)), tr)

/-- `_call_hf_api(text, max_retries)`: run up to `max_retries + 1` attempts.
`hasKey` models whether `HUGGINGFACE_API_KEY` is configured. -/
def call_hf_api (env : Env) (hasKey : Bool) (text : PyStr) (maxRetries : Nat) :
    Except HfError (List Json) × Trace :=
  hfLoop env hasKey text (maxRetries + 1) none ⟨[], [], 0⟩

/-! ## The label→roles table and the controller -/

/-- Static `ROLE_MAP` table from `role_predictor.py`. -/
def ROLE_MAP : List (PyStr × List PyStr) :=
  [ (pyS "technology", [pyS "Software Engineer - Fresher", pyS "Full Stack Developer - Fresher"]),
    (pyS "programming", [pyS "Backend Developer - Fresher"]),
    (pyS "creativity", [pyS "UI/UX Designer - Fresher"]),
    (pyS "analysis", [pyS "Data Analyst - Fresher"]),
    (pyS "learning", [pyS "Machine Learning Intern"]),
    (pyS "organization", [pyS "Business Analyst - Fresher"]),
    (pyS "responsibility", [pyS "Cybersecurity Analyst - Fresher"]) ]

/-- `_map_label_to_roles`: lowercase and strip the label, look it up in
`ROLE_MAP`, defaulting to the empty list. -/
def map_label_to_roles (label : PyStr) : List PyStr :=
  (ROLE_MAP.lookup (pyStrip (pyLower label))).getD []

/-- Python `float(...)` applied to a JSON score value.  Every claim in scope
uses numeric scores; a string or composite here would raise in Python and is
mapped to 0. -/
def pyFloat : Json → ℚ
  | .num q => q
  | .bool b => if b then 1 else 0
  | _ => 0

/-- `p.get("score", 0.0)` followed by the comparison/`float` coercion. -/
def predScore (p : Json) : ℚ := pyFloat ((p.getField (pyS "score")).getD (.num 0))

/-- `str(top_pred.get("label", "unknown"))`. -/
def predLabel (p : Json) : PyStr := ((p.getField (pyS "label")).getD (.str (pyS "unknown"))).render

/-- Python `max(p :: ps, key=f)`: left fold keeping the current element unless a
strictly greater key appears, so ties resolve to the first occurrence. -/
def pyMaxBy (f : Json → ℚ) (p : Json) (ps : List Json) : Json :=
  ps.foldl (fun best q => if f q > f best then q else best) p

/-- The keyword-heuristic label of `predict_role`, a function of the lowercased
text: keyword groups tested in the source's order, defaulting to
"technology". -/
def heuristicLabel (lowered : PyStr) : PyStr :=
  if anyKwIn [pyS "react", pyS "angular", pyS "vue", pyS "frontend"] lowered then
    pyS "technology"
  else if anyKwIn [pyS "python", pyS "java", pyS "node", pyS "backend", pyS "api"] lowered then
    pyS "programming"
  else if anyKwIn [pyS "ui", pyS "ux", pyS "figma", pyS "design"] lowered then
    pyS "creativity"
  else if anyKwIn [pyS "data", pyS "analysis", pyS "excel", pyS "power bi", pyS "sql"] lowered then
    pyS "analysis"
  else if anyKwIn [pyS "ml", pyS "machine learning", pyS "deep learning", pyS "tensorflow", pyS "pytorch"] lowered then
    pyS "learning"
  else if anyKwIn [pyS "business", pyS "requirements", pyS "stakeholder"] lowered then
    pyS "organization"
  else if anyKwIn [pyS "security", pyS "cyber", pyS "vulnerability", pyS "network"] lowered then
    pyS "responsibility"
  else
    pyS "technology"

/-- `[r for r in roles if "Fresher" in r or "Intern" in r]`. -/
def fresherFilter (roles : List PyStr) : List PyStr :=
  roles.filter fun r => hasSub (pyS "Fresher") r || hasSub (pyS "Intern") r

/-- Latency truncation in `predict_role`: texts beyond 2000 characters are cut
to their first 2000 characters. -/
def truncate2000 (t : PyStr) : PyStr := if t.length > 2000 then t.take 2000 else t

/-- The response model `PredictRoleResponse`. -/
structure PredictRoleResponse where
  predicted_label : PyStr
  recommended_roles : List PyStr
  confidence : ℚ
deriving DecidableEq

/-- Outcome of the `predict_role` endpoint: the 400 raised on empty input, or
the response object. -/
inductive PredictOutcome where
  | badRequest (detail : PyStr)
  | ok (r : PredictRoleResponse)
deriving DecidableEq

/-- `predict_role`: strip the input (400 when empty), truncate to 2000
characters, call the remote client with `max_retries = 2` swallowing every
`HTTPException` into an empty prediction list, pick the max-score record when
predictions are non-empty and the keyword heuristic with score 0.5 otherwise,
then map the label to fresher roles. -/
def predict_role (env : Env) (hasKey : Bool) (inputs : PyStr) :
    PredictOutcome × Trace :=
  let text := pyStrip inputs
  if text.isEmpty then
    (.badRequest (pyS "inputs field must not be empty"), ⟨[], [], 0⟩)
  else
    let text := truncate2000 text
    let (res, tr) := call_hf_api env hasKey text 2
    let predictions : List Json := match res with
      | .ok preds => preds
      | .error _ => []
    let (label, score) : PyStr × ℚ :=
      match predictions with
      | p :: ps =>
        let top := pyMaxBy predScore p ps
        (predLabel top, predScore top)
      | [] => (heuristicLabel (pyLower text), 1/2)
    let roles := map_label_to_roles label
    (.ok ⟨label, fresherFilter roles, score⟩, tr)

/-! ## The multi-source aggregator (`analyze_all.py`)

The platform adapters (`process_resume_file`, `extract_username_from_input`,
`get_github_repo_counts`, `get_pr_metrics`, `analyze_leetcode`,
`analyze_codechef`) live outside the aggregator file and are consumed as
opaque collaborators; their outcomes for the current request are inputs to the
aggregator.  A `PyResult` is either the adapter's return value or the message
of the exception it raised. -/

/-- Outcome of calling one adapter: return value, or raised exception
(normalised to `str(e)`). -/
inductive PyResult (α : Type) where
  | ok (v : α)
  | exn (msg : PyStr)

/-- All inputs of one `analyze_all` request: the query parameters (Python
`None` or a string), the process-wide `GITHUB_TOKEN_ENV`, and the outcome each
adapter call would produce if issued. -/
structure AggInputs where
  resumeResult : Json
  github : Option PyStr
  leetcode : Option PyStr
  codechef : Option PyStr
  token : Option PyStr
  githubTokenEnv : Option PyStr
  usernameRes : PyResult PyStr
  gqlRes : PyResult (List (PyStr × Json))
  prRes : PyResult (List (PyStr × Json))
  leetcodeRes : PyResult Json
  codechefRes : PyResult Json

/-- Python truthiness of an optional string parameter (`None` and `""` are
falsy). -/
def truthyOpt : Option PyStr → Bool
  | none => false
  | some s => !s.isEmpty

/-- Python `a or b` on optional strings: `a` when truthy, else `b`. -/
def pyOrOpt (a b : Option PyStr) : Option PyStr := if truthyOpt a then a else b

/-- Python `{**a, **b}`: `a`'s keys in order with `b`'s values overriding,
then `b`'s new keys in order. -/
def mergeFields (a b : List (PyStr × Json)) : List (PyStr × Json) :=
  (a.map fun kv => (kv.1, (b.lookup kv.1).getD kv.2)) ++
    b.filter fun kv => (a.lookup kv.1).isNone

/-- The guard `isinstance(resume_result, dict) and resume_result.get("error")`:
true exactly when the resume helper returned a dict whose `"error"` entry is
truthy (a non-dict or an absent/falsy `"error"` both yield `None`-falsiness in
Python and `false` here). -/
def resumeFailed (resumeResult : Json) : Bool :=
  ((resumeResult.getField (pyS "error")).getD .null).truthy

/-- Result of `analyze_all`: the early `JSONResponse(resume_result, 400)` on a
resume failure, or the `results` dict (insertion-ordered key/value list). -/
inductive AggResponse where
  | jsonResponse (body : Json) (status : Nat)
  | results (m : List (PyStr × Json))

/-- The GitHub block of `analyze_all` (executed only when `github` is truthy):
parse the username, resolve `token or GITHUB_TOKEN_ENV`, run the GraphQL
sub-call then the PR sub-call, recording `github` on full success and
`github_error` on the first failure; any adapter exception is caught and
recorded as `github_error`.  Returns the single contributed key/value pair and
the list of adapter calls issued. -/
def githubBlock (inp : AggInputs) : (PyStr × Json) × List String :=
  match inp.usernameRes with
  | .exn m => ((pyS "github_error", .str m), ["extract_username_from_input"])
  | .ok username =>
    if username.isEmpty then
      ((pyS "github_error", .str (pyS "Could not parse GitHub username from input")),
        ["extract_username_from_input"])
    else
      let tokenToUse := pyOrOpt inp.token inp.githubTokenEnv
      if ¬ truthyOpt tokenToUse then
        ((pyS "github_error",
          .str (pyS "GitHub token missing. Pass ?token=... or set GITHUB_TOKEN env variable")),
          ["extract_username_from_input"])
      else
        match inp.gqlRes with
        | .exn m =>
          ((pyS "github_error", .str m),
            ["extract_username_from_input", "get_github_repo_counts"])
        | .ok gql =>
          if (gql.lookup (pyS "error_graphql")).isSome then
            ((pyS "github_error", (gql.lookup (pyS "error_graphql")).getD .null),
              ["extract_username_from_input", "get_github_repo_counts"])
          else
            match inp.prRes with
            | .exn m =>
              ((pyS "github_error", .str m),
                ["extract_username_from_input", "get_github_repo_counts", "get_pr_metrics"])
            | .ok pr =>
              if (pr.lookup (pyS "error_pr_api")).isSome then
                ((pyS "github_error", (pr.lookup (pyS "error_pr_api")).getD .null),
                  ["extract_username_from_input", "get_github_repo_counts", "get_pr_metrics"])
              else
                ((pyS "github",
                  .obj [(pyS "username", .str username),
                        (pyS "github_metrics", .obj (mergeFields gql pr))]),
                  ["extract_username_from_input", "get_github_repo_counts", "get_pr_metrics"])

/-- The LeetCode block: record `leetcode` on success, `leetcode_error` on a
caught exception. -/
def leetcodeBlock (inp : AggInputs) : PyStr × Json :=
  match inp.leetcodeRes with
  | .ok v => (pyS "leetcode", v)
  | .exn m => (pyS "leetcode_error", .str m)

/-- The CodeChef block: record `codechef` on success, `codechef_error` on a
caught exception. -/
def codechefBlock (inp : AggInputs) : PyStr × Json :=
  match inp.codechefRes with
  | .ok v => (pyS "codechef", v)
  | .exn m => (pyS "codechef_error", .str m)

/-- `analyze_all`: process the resume first and short-circuit with a 400
`JSONResponse` when it returned a dict with a truthy `"error"`; otherwise run
each optional source block when its query parameter is truthy, accumulating
the `results` dict in source order.  The second component lists the adapter
calls issued, in order. -/
def analyze_all (inp : AggInputs) : AggResponse × List String :=
  let calls := ["process_resume_file"]
  if resumeFailed inp.resumeResult then
    (.jsonResponse inp.resumeResult 400, calls)
  else
    let results := [(pyS "resume", inp.resumeResult)]
    let (results, calls) :=
      if truthyOpt inp.github then
        let (kv, ghCalls) := githubBlock inp
        (results ++ [kv], calls ++ ghCalls)
      else (results, calls)
    let (results, calls) :=
      if truthyOpt inp.leetcode then
        (results ++ [leetcodeBlock inp], calls ++ ["analyze_leetcode"])
      else (results, calls)
    let (results, calls) :=
      if truthyOpt inp.codechef then
        (results ++ [codechefBlock inp], calls ++ ["analyze_codechef"])
      else (results, calls)
    (.results results, calls)

/-! ## Scenario environments and result shorthands used by the theorems -/

/-- Remote service answering every POST with HTTP 503 (model loading). -/
def env503 : Env := fun _ => .resp ⟨503, [], none⟩

/-- Remote service answering every POST with HTTP 200 and a JSON body that is
neither a flat list nor a nested list (here: a dict). -/
def envBadShape : Env := fun _ => .resp ⟨200, [], some (.obj [(pyS "error", .str (pyS "boom"))])⟩

/-- Remote service answering every POST with HTTP 200 and an empty JSON list. -/
def envEmptyList : Env := fun _ => .resp ⟨200, pyS "[]", some (.arr [])⟩

/-- Remote service answering every POST with HTTP 200 and the nested body
`[recs]`. -/
def envNested (recs : List Json) : Env := fun _ => .resp ⟨200, [], some (.arr [.arr recs])⟩

/-- Remote service raising a transport exception on every POST (the message may
vary per call). -/
def envExn (msgs : Nat → PyStr) : Env := fun n => .exn (msgs n)

/-- Remote service whose every odd-numbered POST (the authorized first issue of
each attempt) yields HTTP 403 with the insufficient-permissions signature and
whose every even-numbered POST (the anonymous re-issue) yields HTTP 503. -/
def env403sig : Env := fun n =>
  if n % 2 = 0 then
    .resp ⟨403, pyS "api token does not have sufficient permissions for this", none⟩
  else
    .resp ⟨503, [], none⟩

/-- Boolean trigger of the 403 downgrade for a given call outcome. -/
def is403Sig : CallResult → Bool
  | .exn _ => false
  | .resp r => r.status = 403 && hasSub permSignature r.text

/-- The response object produced by the heuristic fallback branch of
`predict_role` on the processed (stripped, truncated) text. -/
def heuristicResponse (text : PyStr) : PredictRoleResponse :=
  let label := heuristicLabel (pyLower text)
  ⟨label, fresherFilter (map_label_to_roles label), 1/2⟩

/-- Keys of a results dict, in insertion order. -/
def keysOf (m : List (PyStr × Json)) : List PyStr := m.map Prod.fst

/-- Concrete request whose resume analysis failed, used to instantiate the
aggregator theorems. -/
def wInpResumeFail : AggInputs :=
  { resumeResult := .obj [(pyS "error", .str (pyS "Could not read file"))]
    github := some (pyS "alice")
    leetcode := some (pyS "bob")
    codechef := none
    token := none
    githubTokenEnv := some (pyS "envtok")
    usernameRes := .ok (pyS "alice")
    gqlRes := .ok []
    prRes := .ok []
    leetcodeRes := .ok .null
    codechefRes := .ok .null }

/-- Concrete request with a successful resume, no github handle, a succeeding
leetcode adapter and a raising codechef adapter. -/
def wInpMixed : AggInputs :=
  { resumeResult := .obj [(pyS "skills", .str (pyS "python"))]
    github := none
    leetcode := some (pyS "bob")
    codechef := some (pyS "carol")
    token := none
    githubTokenEnv := none
    usernameRes := .ok []
    gqlRes := .ok []
    prRes := .ok []
    leetcodeRes := .ok (.obj [(pyS "solved", .num 42)])
    codechefRes := .exn (pyS "HTTPError")
    }

/-- Concrete request whose GitHub first sub-call succeeds and whose second
sub-call reports an error key. -/
def wInpPrFail : AggInputs :=
  { resumeResult := .obj [(pyS "skills", .str (pyS "python"))]
    github := some (pyS "alice")
    leetcode := none
    codechef := none
    token := some (pyS "tok")
    githubTokenEnv := none
    usernameRes := .ok (pyS "alice")
    gqlRes := .ok [(pyS "total_repos", .num 42)]
    prRes := .ok [(pyS "error_pr_api", .str (pyS "PR API failed"))]
    leetcodeRes := .ok .null
    codechefRes := .ok .null }

/-! ## Theorems -/


/-- Helper: a non-nil stripped text has `isEmpty = false`. -/
lemma pyStrip_isEmpty_false {s : PyStr} (h : pyStrip s ≠ []) :
    (pyStrip s).isEmpty = false := by
  cases hs : pyStrip s with
  | nil => exact absurd hs h
  | cons a l => rfl

/-- Helper: the remote client under the all-503 service: three attempts, three
authorized posts, two sleeps, terminal 503 error. -/
lemma call_hf_api_503 (hasKey : Bool) (text : PyStr) :
    call_hf_api env503 hasKey text 2 =
      (.error (.httpExc 503 (pyS "Model is loading, please retry shortly.")),
        ⟨[⟨hasKey, text⟩, ⟨hasKey, text⟩, ⟨hasKey, text⟩], [1/2, 1/2], 3⟩) := by
  simp [call_hf_api, hfLoop, attemptOnce, classifyResponse, doPost, env503, finalError]

/-- Claim C1: for every input text non-empty after stripping, under a remote
service answering HTTP 503 on every call, `predict_role` returns a result
(no remote error reaches the caller): it performs exactly 3 remote attempts
(3 posts) with a fixed 0.5 delay between consecutive attempts, then returns
the local keyword-heuristic result whose confidence is exactly 1/2. -/
theorem c1_three_503_attempts_then_heuristic (hasKey : Bool) (inputs : PyStr) (h : pyStrip inputs ≠ []) :
    predict_role env503 hasKey inputs =
      (.ok (heuristicResponse (truncate2000 (pyStrip inputs))),
        ⟨[⟨hasKey, truncate2000 (pyStrip inputs)⟩, ⟨hasKey, truncate2000 (pyStrip inputs)⟩,
          ⟨hasKey, truncate2000 (pyStrip inputs)⟩], [1/2, 1/2], 3⟩) := by
  simp [predict_role, pyStrip_isEmpty_false h, call_hf_api_503, heuristicResponse]


/-- Helper: the remote client under the always-malformed-2xx service: the
unexpected shape is recorded as the pending 500 error and the loop retries,
ending after three attempts with that error. -/
lemma call_hf_api_badShape (hasKey : Bool) (text : PyStr) :
    call_hf_api envBadShape hasKey text 2 =
      (.error (.httpExc 500 (pyS "Unexpected HuggingFace response: " ++ pyS "<dict>")),
        ⟨[⟨hasKey, text⟩, ⟨hasKey, text⟩, ⟨hasKey, text⟩], [1/2, 1/2], 3⟩) := by
  simp [call_hf_api, hfLoop, attemptOnce, classifyResponse, doPost, envBadShape, finalError, Json.render]

/-- Claim C2 (counterexample): the claim states that an HTTP 2xx response
whose body is neither a flat list nor a nested list is non-retryable and that
no further remote attempt is made.  On the code, after such a response on the
first attempt the client still issues 3 posts in 3 attempts with two 0.5
sleeps, so further remote attempts are made. -/
theorem c2_malformed_2xx_counterexample :
    (predict_role envBadShape true (pyS "data engineer")).2.posts.length = 3 ∧
    (predict_role envBadShape true (pyS "data engineer")).2.attempts = 3 := by
  constructor <;> rfl

/-- Claim C2 (amended): an HTTP 2xx response whose body is neither a flat list
nor a nested list is recorded as an "unexpected response" HTTP 500 error and
treated like the other failures: the client retries up to the bound (3
attempts total with 0.5 sleeps between), after which the Controller falls
back to the local heuristic. -/
theorem c2_malformed_2xx_retried_then_heuristic (hasKey : Bool) (inputs : PyStr) (h : pyStrip inputs ≠ []) :
    predict_role envBadShape hasKey inputs =
      (.ok (heuristicResponse (truncate2000 (pyStrip inputs))),
        ⟨[⟨hasKey, truncate2000 (pyStrip inputs)⟩, ⟨hasKey, truncate2000 (pyStrip inputs)⟩,
          ⟨hasKey, truncate2000 (pyStrip inputs)⟩], [1/2, 1/2], 3⟩) := by
  simp [predict_role, pyStrip_isEmpty_false h, call_hf_api_badShape, heuristicResponse]

/-- Helper: the remote client under the empty-list-2xx service: a single
attempt returning success with zero records. -/
lemma call_hf_api_emptyList (hasKey : Bool) (text : PyStr) :
    call_hf_api envEmptyList hasKey text 2 =
      (.ok [], ⟨[⟨hasKey, text⟩], [], 1⟩) := by
  simp [call_hf_api, hfLoop, attemptOnce, classifyResponse, doPost, envEmptyList]

/-- Claim C10: an HTTP 2xx response whose body is the empty JSON list is
returned by the client as a success with zero records in a single attempt,
and the Controller then behaves exactly like a failed remote call: it
produces the keyword-heuristic response with confidence 1/2, identical to the
outcome under an all-503 service. -/
theorem c10_empty_list_heuristic (hasKey : Bool) (inputs : PyStr) (h : pyStrip inputs ≠ []) :
    call_hf_api envEmptyList hasKey (truncate2000 (pyStrip inputs)) 2 =
      (.ok [], ⟨[⟨hasKey, truncate2000 (pyStrip inputs)⟩], [], 1⟩) ∧
    (predict_role envEmptyList hasKey inputs).1 =
      .ok (heuristicResponse (truncate2000 (pyStrip inputs))) ∧
    (predict_role envEmptyList hasKey inputs).1 = (predict_role env503 hasKey inputs).1 := by
  refine ⟨call_hf_api_emptyList _ _, ?_, ?_⟩
  · simp [predict_role, pyStrip_isEmpty_false h, call_hf_api_emptyList, heuristicResponse]
  · simp [predict_role, pyStrip_isEmpty_false h, call_hf_api_emptyList, call_hf_api_503]

/-- Helper: Python `max(x :: l, key=f)` decomposes the list into a strict-lower
prefix, the chosen maximum, and a no-greater remainder: the result is the
first element attaining the maximum key. -/
lemma pyMaxBy_first_max (f : Json → ℚ) (x : Json) (l : List Json) :
    ∃ pre suf, x :: l = pre ++ pyMaxBy f x l :: suf ∧
      (∀ z ∈ pre, f z < f (pyMaxBy f x l)) ∧
      (∀ z ∈ x :: l, f z ≤ f (pyMaxBy f x l)) := by
  induction l generalizing x with
  | nil => exact ⟨[], [], rfl, by simp, by simp [pyMaxBy]⟩
  | cons y l ih =>
    have hstep : pyMaxBy f x (y :: l) = pyMaxBy f (if f y > f x then y else x) l := by
      simp [pyMaxBy]
    by_cases hxy : f y > f x
    · obtain ⟨pre, suf, hdec, hpre, hall⟩ := ih y
      rw [if_pos hxy] at hstep
      rw [hstep]
      have hyr : f y ≤ f (pyMaxBy f y l) := hall y (by simp)
      refine ⟨x :: pre, suf, by simp [hdec], ?_, ?_⟩
      · intro z hz
        rcases List.mem_cons.mp hz with hz | hz
        · subst hz; exact lt_of_lt_of_le hxy hyr
        · exact hpre z hz
      · intro z hz
        rcases List.mem_cons.mp hz with hz | hz
        · subst hz; exact le_of_lt (lt_of_lt_of_le hxy hyr)
        · exact hall z hz
    · obtain ⟨pre, suf, hdec, hpre, hall⟩ := ih x
      rw [if_neg hxy] at hstep
      rw [hstep]
      have hyx : f y ≤ f x := le_of_not_lt hxy
      cases pre with
      | nil =>
        simp only [List.nil_append, List.cons.injEq] at hdec
        obtain ⟨hxr, hsuf⟩ := hdec
        refine ⟨[], y :: l, by simp [← hxr], by simp, ?_⟩
        intro z hz
        rcases List.mem_cons.mp hz with hz | hz
        · subst hz; rw [← hxr]
        · rcases List.mem_cons.mp hz with hz | hz
          · subst hz; rw [← hxr]; exact hyx
          · exact hall z (List.mem_cons_of_mem x hz)
      | cons a pre' =>
        simp only [List.cons_append, List.cons.injEq] at hdec
        obtain ⟨hax, hl⟩ := hdec
        rw [← hax] at hpre
        have hxr : f x < f (pyMaxBy f x l) := hpre x (by simp)
        refine ⟨x :: y :: pre', suf, ?_, ?_, ?_⟩
        · rw [List.cons_append, List.cons_append, ← hl]
        · intro z hz
          rcases List.mem_cons.mp hz with hz | hz
          · subst hz; exact hxr
          · rcases List.mem_cons.mp hz with hz | hz
            · subst hz; exact lt_of_le_of_lt hyx hxr
            · exact hpre z (List.mem_cons_of_mem x hz)
        · intro z hz
          rcases List.mem_cons.mp hz with hz | hz
          · subst hz; exact hall z (by simp)
          · rcases List.mem_cons.mp hz with hz | hz
            · subst hz; exact le_trans hyx (hall x (by simp))
            · exact hall z (List.mem_cons_of_mem x hz)

/-- Helper: the remote client under the nested-list service: one attempt,
success with the inner record list. -/
lemma call_hf_api_nested (recs : List Json) (hasKey : Bool) (text : PyStr) :
    call_hf_api (envNested recs) hasKey text 2 =
      (.ok recs, ⟨[⟨hasKey, text⟩], [], 1⟩) := by
  simp [call_hf_api, hfLoop, attemptOnce, classifyResponse, doPost, envNested]

/-- Claim C7: when the remote call succeeds with a non-empty record list
(after unwrapping one nesting level), the Controller's result is the record
with the maximum score, ties broken by first occurrence in the returned
order: the selected record decomposes the list into a strictly-smaller-score
prefix and a no-greater remainder.  In particular, for the nested response
with records organization/0.9 and technology/0.1 the prediction is
"organization" with confidence 9/10. -/
theorem c7_max_score_selected (hasKey : Bool) (inputs : PyStr) (h : pyStrip inputs ≠ [])
    (p : Json) (ps : List Json) :
    (∃ pre suf, p :: ps = pre ++ pyMaxBy predScore p ps :: suf ∧
      (∀ z ∈ pre, predScore z < predScore (pyMaxBy predScore p ps)) ∧
      (∀ z ∈ p :: ps, predScore z ≤ predScore (pyMaxBy predScore p ps))) ∧
    (predict_role (envNested (p :: ps)) hasKey inputs).1 =
      .ok ⟨predLabel (pyMaxBy predScore p ps),
        fresherFilter (map_label_to_roles (predLabel (pyMaxBy predScore p ps))),
        predScore (pyMaxBy predScore p ps)⟩ ∧
    (predict_role (envNested [
        .obj [(pyS "label", .str (pyS "organization")), (pyS "score", .num (9/10))],
        .obj [(pyS "label", .str (pyS "technology")), (pyS "score", .num (1/10))]])
      true (pyS "team lead")).1 =
      .ok ⟨pyS "organization", [pyS "Business Analyst - Fresher"], 9/10⟩ := by
  refine ⟨pyMaxBy_first_max _ _ _, ?_, ?_⟩
  · simp [predict_role, pyStrip_isEmpty_false h, call_hf_api_nested]
  · have h9 : (9/10 : ℚ) = mkRat 9 10 := by norm_num [Rat.mkRat_eq_div]
    have h1 : (1/10 : ℚ) = mkRat 1 10 := by norm_num [Rat.mkRat_eq_div]
    rw [h9, h1]
    decide

/-- Helper: the remote client under the always-raising transport: three
attempts, each one post, terminal wrapped 500 carrying the last message. -/
lemma call_hf_api_exn (msgs : Nat → PyStr) (hasKey : Bool) (text : PyStr) :
    call_hf_api (envExn msgs) hasKey text 2 =
      (.error (.httpExc 500 (msgs 2)),
        ⟨[⟨hasKey, text⟩, ⟨hasKey, text⟩, ⟨hasKey, text⟩], [1/2, 1/2], 3⟩) := by
  simp [call_hf_api, hfLoop, attemptOnce, doPost, envExn, finalError]

/-- Helper: a successful `leadsWith` exhibits the remainder. -/
lemma leadsWith_parts {pat s : PyStr} (h : leadsWith pat s = true) :
    ∃ r, s = pat ++ r := by
  induction pat generalizing s with
  | nil => exact ⟨s, rfl⟩
  | cons c cs ih =>
    cases s with
    | nil => simp [leadsWith] at h
    | cons d ds =>
      simp only [leadsWith, Bool.and_eq_true, decide_eq_true_eq] at h
      obtain ⟨rfl, h2⟩ := h
      obtain ⟨r, rfl⟩ := ih h2
      exact ⟨r, rfl⟩

/-- Helper: `leadsWith` holds on an exhibited prefix. -/
lemma leadsWith_of_parts (pat r : PyStr) : leadsWith pat (pat ++ r) = true := by
  induction pat with
  | nil => rfl
  | cons c cs ih => simp [leadsWith, ih]

/-- Helper: `hasSub` is exactly the existence of a decomposition around the
pattern. -/
lemma hasSub_parts {pat s : PyStr} : hasSub pat s = true ↔ ∃ l r, s = l ++ pat ++ r := by
  induction s with
  | nil =>
    constructor
    · intro h
      obtain ⟨r, hr⟩ := leadsWith_parts (show leadsWith pat [] = true from h)
      exact ⟨[], r, by simpa using hr⟩
    · rintro ⟨l, r, hl⟩
      have h0 : l ++ pat ++ r = [] := hl.symm
      rw [List.append_assoc] at h0
      obtain ⟨hl1, h1⟩ := List.append_eq_nil.mp h0
      obtain ⟨hp, hr⟩ := List.append_eq_nil.mp h1
      subst hp
      rfl
  | cons x s ih =>
    constructor
    · intro h
      have hsplit : leadsWith pat (x :: s) = true ∨ hasSub pat s = true := by
        simpa [hasSub] using h
      rcases hsplit with h1 | h2
      · obtain ⟨r, hr⟩ := leadsWith_parts h1
        exact ⟨[], r, by simpa using hr⟩
      · obtain ⟨l, r, rfl⟩ := ih.mp h2
        exact ⟨x :: l, r, rfl⟩
    · rintro ⟨l, r, hl⟩
      cases l with
      | nil =>
        simp only [List.nil_append] at hl
        show (leadsWith pat (x :: s) || hasSub pat s) = true
        rw [hl]
        simp [leadsWith_of_parts]
      | cons a l' =>
        simp only [List.cons_append, List.cons.injEq] at hl
        obtain ⟨rfl, hl2⟩ := hl
        show (leadsWith pat (x :: s) || hasSub pat s) = true
        have := ih.mpr ⟨l', r, hl2⟩
        simp [this]

/-- Helper: `hasSub` holds on an exhibited decomposition. -/
lemma hasSub_append (pat l r : PyStr) : hasSub pat (l ++ pat ++ r) = true :=
  hasSub_parts.mpr ⟨l, r, rfl⟩

/-- Helper: substring occurrence is preserved by character-wise mapping. -/
lemma hasSub_map {pat s : PyStr} (f : Char → Char) (h : hasSub pat s = true) :
    hasSub (pat.map f) (s.map f) = true := by
  obtain ⟨l, r, rfl⟩ := hasSub_parts.mp h
  simpa [List.map_append] using hasSub_append (pat.map f) (l.map f) (r.map f)

/-- Helper: substring occurrence of a pattern with a non-dropped head survives
`dropWhile`. -/
lemma hasSub_dropWhile {p : Char → Bool} {c : Char} {cs s : PyStr}
    (hc : p c = false) (h : hasSub (c :: cs) s = true) :
    hasSub (c :: cs) (s.dropWhile p) = true := by
  induction s with
  | nil => simp [hasSub, leadsWith] at h
  | cons x s ih =>
    by_cases hx : p x = true
    · rw [List.dropWhile_cons, if_pos hx]
      apply ih
      have hsplit : leadsWith (c :: cs) (x :: s) = true ∨ hasSub (c :: cs) s = true := by
        simpa [hasSub] using h
      rcases hsplit with h1 | h2
      · exfalso
        simp only [leadsWith, Bool.and_eq_true, decide_eq_true_eq] at h1
        rw [h1.1] at hc
        rw [hx] at hc
        exact Bool.noConfusion hc
      · exact h2
    · rw [List.dropWhile_cons, if_neg hx]
      exact h

/-- Helper: substring occurrence is preserved by reversal (with the pattern
reversed). -/
lemma hasSub_reverse {pat s : PyStr} (h : hasSub pat s = true) :
    hasSub pat.reverse s.reverse = true := by
  obtain ⟨l, r, rfl⟩ := hasSub_parts.mp h
  have heq : (l ++ pat ++ r).reverse = r.reverse ++ pat.reverse ++ l.reverse := by
    simp [List.reverse_append, List.append_assoc]
  rw [heq]
  exact hasSub_append _ _ _

/-- Helper: an occurrence of "react" survives stripping (both end characters of
the pattern are non-whitespace). -/
lemma hasSub_react_pyStrip {s : PyStr} (h : hasSub (pyS "react") s = true) :
    hasSub (pyS "react") (pyStrip s) = true := by
  unfold pyStrip
  have h1 : hasSub (pyS "react") (s.dropWhile Char.isWhitespace) = true :=
    hasSub_dropWhile (by decide) h
  have h2 := hasSub_reverse h1
  have hrev : (pyS "react").reverse = pyS "tcaer" := by decide
  rw [hrev] at h2
  have h3 : hasSub (pyS "tcaer")
      ((s.dropWhile Char.isWhitespace).reverse.dropWhile Char.isWhitespace) = true :=
    hasSub_dropWhile (by decide) h2
  have h4 := hasSub_reverse h3
  have hrev2 : (pyS "tcaer").reverse = pyS "react" := by decide
  rw [hrev2] at h4
  exact h4

/-- Helper: a text containing "react" strips to a non-empty text. -/
lemma pyStrip_ne_nil_of_react {s : PyStr} (h : hasSub (pyS "react") s = true) :
    pyStrip s ≠ [] := by
  intro hnil
  have h1 := hasSub_react_pyStrip h
  rw [hnil] at h1
  simp [hasSub, leadsWith] at h1

/-- Helper: texts within the ceiling are not truncated. -/
lemma truncate2000_eq_self {t : PyStr} (h : t.length ≤ 2000) : truncate2000 t = t := by
  simp only [truncate2000]
  rw [if_neg (by omega)]

/-- Helper: lowercasing preserves an occurrence of the all-lowercase pattern
"react". -/
lemma hasSub_react_lower {t : PyStr} (h : hasSub (pyS "react") t = true) :
    hasSub (pyS "react") (pyLower t) = true := by
  have h1 := hasSub_map Char.toLower h
  have hfix : (pyS "react").map Char.toLower = pyS "react" := by decide
  rw [hfix] at h1
  exact h1

/-- Helper: a lowered text containing "react" matches the first keyword group,
so the heuristic label is "technology". -/
lemma heuristicLabel_react {lowered : PyStr} (h : hasSub (pyS "react") lowered = true) :
    heuristicLabel lowered = pyS "technology" := by
  simp [heuristicLabel, anyKwIn, h]

/-- Claim C8: the fallback heuristic is a pure deterministic function of the
lowercased processed text — under any always-raising remote service, for any
key configuration, `predict_role` returns the heuristic response with
confidence 1/2; any lowered text containing "react" matches the first keyword
group, so the label is "technology"; and any input text containing "react"
(within the truncation ceiling) yields label "technology", confidence 1/2 and
the non-empty fresher role list. -/
theorem c8_heuristic_fallback_react :
    (∀ (msgs : Nat → PyStr) (hasKey : Bool) (inputs : PyStr), pyStrip inputs ≠ [] →
      (predict_role (envExn msgs) hasKey inputs).1 =
        .ok (heuristicResponse (truncate2000 (pyStrip inputs)))) ∧
    (∀ lowered : PyStr, hasSub (pyS "react") lowered = true →
      heuristicLabel lowered = pyS "technology") ∧
    (∀ (msgs : Nat → PyStr) (hasKey : Bool) (inputs : PyStr),
      hasSub (pyS "react") inputs = true → (pyStrip inputs).length ≤ 2000 →
      (predict_role (envExn msgs) hasKey inputs).1 =
        .ok ⟨pyS "technology",
          [pyS "Software Engineer - Fresher", pyS "Full Stack Developer - Fresher"], 1/2⟩) := by
  refine ⟨?_, fun lowered h => heuristicLabel_react h, ?_⟩
  · intro msgs hasKey inputs h
    simp [predict_role, pyStrip_isEmpty_false h, call_hf_api_exn, heuristicResponse]
  · intro msgs hasKey inputs hreact hlen
    have hne := pyStrip_ne_nil_of_react hreact
    have h1 : (predict_role (envExn msgs) hasKey inputs).1 =
        .ok (heuristicResponse (truncate2000 (pyStrip inputs))) := by
      simp [predict_role, pyStrip_isEmpty_false hne, call_hf_api_exn, heuristicResponse]
    rw [h1, truncate2000_eq_self hlen]
    have hr2 : hasSub (pyS "react") (pyLower (pyStrip inputs)) = true :=
      hasSub_react_lower (hasSub_react_pyStrip hreact)
    unfold heuristicResponse
    rw [heuristicLabel_react hr2]
    rfl

/-- Helper: the trace of one loop iteration: the issued requests are the
authorized request, followed by the anonymous re-issue exactly when the first
response is a 403 bearing the permission signature; sleeps and the attempt
counter are untouched. -/
lemma attemptOnce_trace (env : Env) (hasKey : Bool) (text : PyStr) (tr : Trace) :
    (attemptOnce env hasKey text tr).2 =
      { tr with posts := tr.posts ++ (if is403Sig (env tr.posts.length) then
          [⟨hasKey, text⟩, ⟨false, text⟩] else [⟨hasKey, text⟩]) } := by
  cases henv : env tr.posts.length with
  | exn m =>
    simp [attemptOnce, doPost, henv, is403Sig]
  | resp r =>
    by_cases hsig : r.status = 403 ∧ hasSub permSignature r.text = true
    · have hb : is403Sig (.resp r) = true := by
        simp [is403Sig, hsig.1, hsig.2]
      cases henv2 : env (tr.posts.length + 1) with
      | exn m2 =>
        simp [attemptOnce, doPost, henv, henv2, hb, hsig.1, hsig.2]
      | resp r2 =>
        simp [attemptOnce, doPost, henv, henv2, hb, hsig.1, hsig.2]
    · have hb : is403Sig (.resp r) = false := by
        rcases not_and_or.mp hsig with hA | hB
        · simp [is403Sig, hA]
        · have : hasSub permSignature r.text = false := by
            cases hx : hasSub permSignature r.text
            · rfl
            · exact absurd hx hB
          simp [is403Sig, this]
      simp [attemptOnce, doPost, henv, hb, hsig]

/-- Helper: sanity computation of the client against the service that answers
each authorized post with the signature 403 and each anonymous re-issue with
503: three full attempts still happen, each issuing an authorized post and an
anonymous downgrade post. -/
lemma call_hf_api_403sig (text : PyStr) :
    call_hf_api env403sig true text 2 =
      (.error (.httpExc 503 (pyS "Model is loading, please retry shortly.")),
        ⟨[⟨true, text⟩, ⟨false, text⟩, ⟨true, text⟩, ⟨false, text⟩, ⟨true, text⟩, ⟨false, text⟩],
          [1/2, 1/2], 3⟩) := by
  have hsig : hasSub permSignature
      (pyS "api token does not have sufficient permissions for this") = true := by decide
  simp [call_hf_api, hfLoop, attemptOnce, classifyResponse, doPost, env403sig, finalError, hsig]

/-- Claim C3: within a single attempt, the client re-issues the identical
request exactly once with the Authorization header omitted if and only if the
first response of the attempt is HTTP 403 whose body contains the
insufficient-permissions signature; otherwise exactly one post is issued.
The substitution changes neither the sleeps nor the attempt counter, and
under a service answering every authorized post with the signature 403 (and
every anonymous re-issue with 503) the client still performs all 3 bounded
attempts, each issuing the authorized post followed by one anonymous
re-issue. -/
theorem c3_downgrade_iff_perm_signature (env : Env) (hasKey : Bool) (text : PyStr) (tr : Trace) :
    ((attemptOnce env hasKey text tr).2.posts =
      tr.posts ++ (if is403Sig (env tr.posts.length) then
        [⟨hasKey, text⟩, ⟨false, text⟩] else [⟨hasKey, text⟩])) ∧
    (attemptOnce env hasKey text tr).2.sleeps = tr.sleeps ∧
    (attemptOnce env hasKey text tr).2.attempts = tr.attempts ∧
    (call_hf_api env403sig true text 2).2 =
      ⟨[⟨true, text⟩, ⟨false, text⟩, ⟨true, text⟩, ⟨false, text⟩, ⟨true, text⟩, ⟨false, text⟩],
        [1/2, 1/2], 3⟩ := by
  refine ⟨?_, ?_, ?_, ?_⟩
  · rw [attemptOnce_trace]
  · rw [attemptOnce_trace]
  · rw [attemptOnce_trace]
  · rw [call_hf_api_403sig]

/-- Claim C4: when the resume analysis fails (the helper returned a dict with
a truthy "error"), `analyze_all` returns exactly the resume error object with
status 400, and the only adapter call issued is the resume processing: no
github, leetcode or codechef adapter is invoked, so the response carries none
of those sources' success or error keys. -/
theorem c4_resume_failure_short_circuits (inp : AggInputs) (h : resumeFailed inp.resumeResult = true) :
    analyze_all inp = (.jsonResponse inp.resumeResult 400, ["process_resume_file"]) := by
  simp [analyze_all, h]

/-- Helper: the GitHub block contributes either the success key or the error
key, never any other. -/
lemma githubBlock_fst (inp : AggInputs) :
    (githubBlock inp).1.1 = pyS "github" ∨ (githubBlock inp).1.1 = pyS "github_error" := by
  simp only [githubBlock]
  rcases hus : inp.usernameRes with u | m
  · dsimp only
    by_cases hu : u.isEmpty = true
    · simp [hu]
    · rw [if_neg hu]
      by_cases ht : truthyOpt (pyOrOpt inp.token inp.githubTokenEnv) = true
      · rw [if_neg (not_not_intro ht)]
        rcases hgq : inp.gqlRes with gql | m
        · dsimp only
          by_cases hq : (gql.lookup (pyS "error_graphql")).isSome = true
          · simp [hq]
          · rw [if_neg hq]
            rcases hpr : inp.prRes with pr | m
            · dsimp only
              by_cases hp : (pr.lookup (pyS "error_pr_api")).isSome = true
              · simp [hp]
              · rw [if_neg hp]
                simp
            · simp
        · simp
      · rw [if_pos ht]
        simp
  · simp

/-- Helper: the LeetCode block contributes either the success key or the error
key. -/
lemma leetcodeBlock_fst (inp : AggInputs) :
    (leetcodeBlock inp).1 = pyS "leetcode" ∨ (leetcodeBlock inp).1 = pyS "leetcode_error" := by
  cases hres : inp.leetcodeRes <;> simp [leetcodeBlock, hres]

/-- Helper: the CodeChef block contributes either the success key or the error
key. -/
lemma codechefBlock_fst (inp : AggInputs) :
    (codechefBlock inp).1 = pyS "codechef" ∨ (codechefBlock inp).1 = pyS "codechef_error" := by
  cases hres : inp.codechefRes <;> simp [codechefBlock, hres]

/-- Helper: the results dict of a successful-resume request, in closed form. -/
lemma analyze_all_results (inp : AggInputs) (h : resumeFailed inp.resumeResult = false) :
    (analyze_all inp).1 = .results (
      [(pyS "resume", inp.resumeResult)] ++
      (if truthyOpt inp.github then [(githubBlock inp).1] else []) ++
      (if truthyOpt inp.leetcode then [leetcodeBlock inp] else []) ++
      (if truthyOpt inp.codechef then [codechefBlock inp] else [])) := by
  by_cases hg : truthyOpt inp.github = true <;>
  by_cases hl : truthyOpt inp.leetcode = true <;>
  by_cases hc : truthyOpt inp.codechef = true <;>
  simp [analyze_all, h, hg, hl, hc]

/-- Claim C5: when the resume analysis succeeds, for each optional source
(github, leetcode, codechef): if its identifier is falsy neither the source
key nor its `_error` key appears in the results; if the identifier is truthy
exactly one of the two keys appears, never both.  The statement quantifies
over all adapter outcomes of the other sources, including raising adapters,
so a failure in one source never prevents another source from being attempted
and recorded. -/
theorem c5_source_key_exclusivity (inp : AggInputs) (h : resumeFailed inp.resumeResult = false) :
    ∃ m, (analyze_all inp).1 = .results m ∧
      ((truthyOpt inp.github = false →
        pyS "github" ∉ keysOf m ∧ pyS "github_error" ∉ keysOf m) ∧
       (truthyOpt inp.github = true →
        (pyS "github" ∈ keysOf m ∧ pyS "github_error" ∉ keysOf m) ∨
        (pyS "github_error" ∈ keysOf m ∧ pyS "github" ∉ keysOf m))) ∧
      ((truthyOpt inp.leetcode = false →
        pyS "leetcode" ∉ keysOf m ∧ pyS "leetcode_error" ∉ keysOf m) ∧
       (truthyOpt inp.leetcode = true →
        (pyS "leetcode" ∈ keysOf m ∧ pyS "leetcode_error" ∉ keysOf m) ∨
        (pyS "leetcode_error" ∈ keysOf m ∧ pyS "leetcode" ∉ keysOf m))) ∧
      ((truthyOpt inp.codechef = false →
        pyS "codechef" ∉ keysOf m ∧ pyS "codechef_error" ∉ keysOf m) ∧
       (truthyOpt inp.codechef = true →
        (pyS "codechef" ∈ keysOf m ∧ pyS "codechef_error" ∉ keysOf m) ∨
        (pyS "codechef_error" ∈ keysOf m ∧ pyS "codechef" ∉ keysOf m))) := by
  by_cases hg : truthyOpt inp.github = true <;>
  by_cases hl : truthyOpt inp.leetcode = true <;>
  by_cases hc : truthyOpt inp.codechef = true <;>
  refine ⟨_, analyze_all_results inp h, ?_, ?_, ?_⟩ <;>
  constructor <;>
  intro hcond <;>
  first
    | exact absurd hcond hg
    | exact absurd hcond hl
    | exact absurd hcond hc
    | (rcases githubBlock_fst inp with hgk | hgk <;>
       rcases leetcodeBlock_fst inp with hlk | hlk <;>
       rcases codechefBlock_fst inp with hck | hck <;>
       first
         | (refine Or.inl ⟨?_, ?_⟩ <;> simp [keysOf, hg, hl, hc, hgk, hlk, hck] <;> decide)
         | (refine Or.inr ⟨?_, ?_⟩ <;> simp [keysOf, hg, hl, hc, hgk, hlk, hck] <;> decide)
         | (constructor <;> simp [keysOf, hg, hl, hc, hgk, hlk, hck] <;> decide))
    | simp [hg] at hcond
    | simp [hl] at hcond
    | simp [hc] at hcond

/-- Helper: the adapter calls issued by a successful-resume request, in closed
form. -/
lemma analyze_all_calls (inp : AggInputs) (h : resumeFailed inp.resumeResult = false) :
    (analyze_all inp).2 = ["process_resume_file"] ++
      (if truthyOpt inp.github then (githubBlock inp).2 else []) ++
      (if truthyOpt inp.leetcode then ["analyze_leetcode"] else []) ++
      (if truthyOpt inp.codechef then ["analyze_codechef"] else []) := by
  by_cases hg : truthyOpt inp.github = true <;>
  by_cases hl : truthyOpt inp.leetcode = true <;>
  by_cases hc : truthyOpt inp.codechef = true <;>
  simp [analyze_all, h, hg, hl, hc]

/-- Claim C6: GitHub analysis is all-or-nothing.  With a successful resume, a
truthy github parameter, a parsed username, an available token and a first
sub-call (repository metrics) that succeeded: if the second sub-call
(pull-request metrics) reports an `error_pr_api` value or raises, the results
carry `github_error` with that failing sub-call's message and no `github` key
(the successful first sub-call's data is discarded); symmetrically, when the
first sub-call reports `error_graphql`, the results carry `github_error` with
that message, no `github` key, and the second sub-call is never invoked. -/
theorem c6_github_all_or_nothing (inp : AggInputs) (h : resumeFailed inp.resumeResult = false)
    (hg : truthyOpt inp.github = true) (u : PyStr)
    (hu : inp.usernameRes = PyResult.ok u) (hune : u.isEmpty = false)
    (ht : truthyOpt (pyOrOpt inp.token inp.githubTokenEnv) = true)
    (gql : List (PyStr × Json)) (hgql : inp.gqlRes = PyResult.ok gql) :
    (∀ pr e, inp.prRes = PyResult.ok pr →
      gql.lookup (pyS "error_graphql") = none →
      pr.lookup (pyS "error_pr_api") = some e →
      ∃ m, (analyze_all inp).1 = .results m ∧
        m.lookup (pyS "github_error") = some e ∧
        pyS "github" ∉ keysOf m ∧
        "get_pr_metrics" ∈ (analyze_all inp).2) ∧
    (∀ msg, inp.prRes = PyResult.exn msg →
      gql.lookup (pyS "error_graphql") = none →
      ∃ m, (analyze_all inp).1 = .results m ∧
        m.lookup (pyS "github_error") = some (.str msg) ∧
        pyS "github" ∉ keysOf m) ∧
    (∀ e, gql.lookup (pyS "error_graphql") = some e →
      ∃ m, (analyze_all inp).1 = .results m ∧
        m.lookup (pyS "github_error") = some e ∧
        pyS "github" ∉ keysOf m ∧
        "get_pr_metrics" ∉ (analyze_all inp).2) := by
  have b1 : (pyS "github_error" == pyS "resume") = false := by decide
  have b2 : (pyS "github_error" == pyS "github_error") = true := by decide
  refine ⟨?_, ?_, ?_⟩
  · intro pr e hpr hq hp
    have hblock : githubBlock inp = ((pyS "github_error", e),
        ["extract_username_from_input", "get_github_repo_counts", "get_pr_metrics"]) := by
      simp [githubBlock, hu, hune, ht, hgql, hpr, hq, hp]
    refine ⟨_, analyze_all_results inp h, ?_, ?_, ?_⟩
    · simp [hg, hblock, List.lookup, b1, b2]
    · rcases leetcodeBlock_fst inp with hlk | hlk <;>
      rcases codechefBlock_fst inp with hck | hck <;>
      by_cases hl : truthyOpt inp.leetcode = true <;>
      by_cases hc : truthyOpt inp.codechef = true <;>
      simp [keysOf, hg, hl, hc, hblock, hlk, hck] <;> decide
    · rw [analyze_all_calls inp h]
      by_cases hl : truthyOpt inp.leetcode = true <;>
      by_cases hc : truthyOpt inp.codechef = true <;>
      simp [hg, hl, hc, hblock]
  · intro msg hpr hq
    have hblock : githubBlock inp = ((pyS "github_error", .str msg),
        ["extract_username_from_input", "get_github_repo_counts", "get_pr_metrics"]) := by
      simp [githubBlock, hu, hune, ht, hgql, hpr, hq]
    refine ⟨_, analyze_all_results inp h, ?_, ?_⟩
    · simp [hg, hblock, List.lookup, b1, b2]
    · rcases leetcodeBlock_fst inp with hlk | hlk <;>
      rcases codechefBlock_fst inp with hck | hck <;>
      by_cases hl : truthyOpt inp.leetcode = true <;>
      by_cases hc : truthyOpt inp.codechef = true <;>
      simp [keysOf, hg, hl, hc, hblock, hlk, hck] <;> decide
  · intro e hq
    have hblock : githubBlock inp = ((pyS "github_error", e),
        ["extract_username_from_input", "get_github_repo_counts"]) := by
      simp [githubBlock, hu, hune, ht, hgql, hq]
    refine ⟨_, analyze_all_results inp h, ?_, ?_, ?_⟩
    · simp [hg, hblock, List.lookup, b1, b2]
    · rcases leetcodeBlock_fst inp with hlk | hlk <;>
      rcases codechefBlock_fst inp with hck | hck <;>
      by_cases hl : truthyOpt inp.leetcode = true <;>
      by_cases hc : truthyOpt inp.codechef = true <;>
      simp [keysOf, hg, hl, hc, hblock, hlk, hck] <;> decide
    · rw [analyze_all_calls inp h]
      by_cases hl : truthyOpt inp.leetcode = true <;>
      by_cases hc : truthyOpt inp.codechef = true <;>
      simp [hg, hl, hc, hblock]

/-- Claim C9: for every label that lowercases and strips to a key of
`ROLE_MAP`, the Mapper returns exactly that key's role list; for every label
matching no key it returns the empty list.  Being a total function, it has no
other failure mode and no side effects. -/
theorem c9_mapper_table_lookup (label : PyStr) :
    (∀ k roles, (k, roles) ∈ ROLE_MAP → pyStrip (pyLower label) = k →
      map_label_to_roles label = roles) ∧
    ((∀ k ∈ ROLE_MAP.map Prod.fst, pyStrip (pyLower label) ≠ k) →
      map_label_to_roles label = []) := by
  constructor
  · intro k roles hmem hkey
    simp only [ROLE_MAP, List.mem_cons, List.not_mem_nil, or_false] at hmem
    rcases hmem with h | h | h | h | h | h | h <;>
    · simp only [Prod.mk.injEq] at h
      obtain ⟨rfl, rfl⟩ := h
      unfold map_label_to_roles
      rw [hkey]
      decide
  · intro hnone
    have e1 : (pyStrip (pyLower label) == pyS "technology") = false :=
      beq_eq_false_iff_ne.mpr (hnone _ (by decide))
    have e2 : (pyStrip (pyLower label) == pyS "programming") = false :=
      beq_eq_false_iff_ne.mpr (hnone _ (by decide))
    have e3 : (pyStrip (pyLower label) == pyS "creativity") = false :=
      beq_eq_false_iff_ne.mpr (hnone _ (by decide))
    have e4 : (pyStrip (pyLower label) == pyS "analysis") = false :=
      beq_eq_false_iff_ne.mpr (hnone _ (by decide))
    have e5 : (pyStrip (pyLower label) == pyS "learning") = false :=
      beq_eq_false_iff_ne.mpr (hnone _ (by decide))
    have e6 : (pyStrip (pyLower label) == pyS "organization") = false :=
      beq_eq_false_iff_ne.mpr (hnone _ (by decide))
    have e7 : (pyStrip (pyLower label) == pyS "responsibility") = false :=
      beq_eq_false_iff_ne.mpr (hnone _ (by decide))
    simp [map_label_to_roles, ROLE_MAP, List.lookup, e1, e2, e3, e4, e5, e6, e7]

theorem c1_three_503_attempts_then_heuristic_witness :
    predict_role env503 true (pyS "hello") =
      (.ok (heuristicResponse (truncate2000 (pyStrip (pyS "hello")))),
        ⟨[⟨true, truncate2000 (pyStrip (pyS "hello"))⟩,
          ⟨true, truncate2000 (pyStrip (pyS "hello"))⟩,
          ⟨true, truncate2000 (pyStrip (pyS "hello"))⟩], [1/2, 1/2], 3⟩) :=
  c1_three_503_attempts_then_heuristic true (pyS "hello") (by decide)

theorem c2_malformed_2xx_retried_then_heuristic_witness :
    predict_role envBadShape true (pyS "hello") =
      (.ok (heuristicResponse (truncate2000 (pyStrip (pyS "hello")))),
        ⟨[⟨true, truncate2000 (pyStrip (pyS "hello"))⟩,
          ⟨true, truncate2000 (pyStrip (pyS "hello"))⟩,
          ⟨true, truncate2000 (pyStrip (pyS "hello"))⟩], [1/2, 1/2], 3⟩) :=
  c2_malformed_2xx_retried_then_heuristic true (pyS "hello") (by decide)

theorem c4_resume_failure_short_circuits_witness :
    analyze_all wInpResumeFail =
      (.jsonResponse wInpResumeFail.resumeResult 400, ["process_resume_file"]) :=
  c4_resume_failure_short_circuits wInpResumeFail (by decide)

theorem c5_source_key_exclusivity_witness :
    ∃ m, (analyze_all wInpMixed).1 = .results m ∧
      (pyS "github" ∉ keysOf m ∧ pyS "github_error" ∉ keysOf m) ∧
      ((pyS "leetcode" ∈ keysOf m ∧ pyS "leetcode_error" ∉ keysOf m) ∨
       (pyS "leetcode_error" ∈ keysOf m ∧ pyS "leetcode" ∉ keysOf m)) ∧
      ((pyS "codechef" ∈ keysOf m ∧ pyS "codechef_error" ∉ keysOf m) ∨
       (pyS "codechef_error" ∈ keysOf m ∧ pyS "codechef" ∉ keysOf m)) := by
  obtain ⟨m, hm, hgh, hlc, hcc⟩ := c5_source_key_exclusivity wInpMixed (by decide)
  exact ⟨m, hm, hgh.1 (by decide), hlc.2 (by decide), hcc.2 (by decide)⟩

theorem c6_github_all_or_nothing_witness :
    ∃ m, (analyze_all wInpPrFail).1 = .results m ∧
      m.lookup (pyS "github_error") = some (.str (pyS "PR API failed")) ∧
      pyS "github" ∉ keysOf m ∧
      "get_pr_metrics" ∈ (analyze_all wInpPrFail).2 :=
  (c6_github_all_or_nothing wInpPrFail (by decide) (by decide) (pyS "alice") rfl (by decide) (by decide)
    [(pyS "total_repos", .num 42)] rfl).1
    [(pyS "error_pr_api", .str (pyS "PR API failed"))] (.str (pyS "PR API failed")) rfl rfl rfl

theorem c7_max_score_selected_witness :
    (predict_role (envNested [
        .obj [(pyS "label", .str (pyS "organization")), (pyS "score", .num (9/10))],
        .obj [(pyS "label", .str (pyS "technology")), (pyS "score", .num (1/10))]])
      true (pyS "team lead")).1 =
      .ok ⟨pyS "organization", [pyS "Business Analyst - Fresher"], 9/10⟩ :=
  (c7_max_score_selected true (pyS "ml intern") (by decide) Json.null []).2.2

theorem c8_heuristic_fallback_react_witness :
    (predict_role (envExn (fun _ => pyS "ConnectError")) false (pyS "  react developer  ")).1 =
      .ok ⟨pyS "technology",
        [pyS "Software Engineer - Fresher", pyS "Full Stack Developer - Fresher"], 1/2⟩ :=
  c8_heuristic_fallback_react.2.2 (fun _ => pyS "ConnectError") false (pyS "  react developer  ") (by decide) (by decide)

theorem c9_mapper_table_lookup_witness :
    map_label_to_roles (pyS "  TECHnology ") =
      [pyS "Software Engineer - Fresher", pyS "Full Stack Developer - Fresher"] ∧
    map_label_to_roles (pyS "astronaut") = [] :=
  ⟨(c9_mapper_table_lookup (pyS "  TECHnology ")).1 (pyS "technology")
      [pyS "Software Engineer - Fresher", pyS "Full Stack Developer - Fresher"]
      (by decide) (by decide),
   (c9_mapper_table_lookup (pyS "astronaut")).2 (by decide)⟩

theorem c10_empty_list_heuristic_witness :
    (predict_role envEmptyList true (pyS "hello")).1 =
      .ok (heuristicResponse (truncate2000 (pyStrip (pyS "hello")))) :=
  (c10_empty_list_heuristic true (pyS "hello") (by decide)).2.1

end Spec2Proof
